import Mathlib

/- Verification development for the cell-eater frame simulation.

   The definitions below are a shallow embedding of the per-frame gameplay
   core found in src/src/systems.ts (grouping, repulsion, movement, food
   spawning, split, merge, collision handlers), together with the pieces of
   src/src/game.ts (disconnect handler, room-create bulk spawn) and
   src/src/constants.ts that they use.

   Numeric discipline: the build pipeline (build.js) replaces Math.sqrt with
   the engine's deterministic square root dSqrt and Math.random with the
   engine's seeded dRandom, so the shipped simulation runs on deterministic
   arithmetic.  We embed scalar arithmetic over the rationals and model dSqrt
   as a 16.16 fixed-point integer square root, and the PRNG as an explicit
   two-word state machine.  JavaScript truncation (v | 0) is modelled by
   truncation toward zero. -/

namespace CellEater

/-- World width in world units (constants.ts). -/
def WORLD_WIDTH : ℚ := 6000

/-- World height in world units (constants.ts). -/
def WORLD_HEIGHT : ℚ := 6000

/-- Movement speed (constants.ts). -/
def SPEED : ℚ := 200

/-- Initial cell radius (constants.ts). -/
def INITIAL_RADIUS : ℚ := 20

/-- Maximum cell radius (constants.ts). -/
def MAX_RADIUS : ℚ := 200

/-- Eat ratio 1.2 (constants.ts). -/
def EAT_RATIO : ℚ := 6 / 5

/-- Food growth factor 0.05 (constants.ts). -/
def FOOD_GROW : ℚ := 1 / 20

/-- Player growth factor 0.3 (constants.ts). -/
def PLAYER_GROW : ℚ := 3 / 10

/-- Room-start food count (constants.ts). -/
def FOOD_COUNT : Nat := 800

/-- Maximum number of live food entities (constants.ts). -/
def MAX_FOOD : Nat := 1600

/-- Per-frame food spawn probability 0.15 (constants.ts). -/
def FOOD_SPAWN_CHANCE : ℚ := 3 / 20

/-- Minimum radius a cell needs in order to split (constants.ts). -/
def MIN_SPLIT_RADIUS : ℚ := 15

/-- Maximum number of cells one player may own (constants.ts). -/
def MAX_CELLS_PER_PLAYER : Nat := 16

/-- Frames a split cell must wait before it may merge back (constants.ts). -/
def MERGE_DELAY_FRAMES : Nat := 600

/-- Repulsion overlap factor 0.3 (constants.ts, inlined in systems.ts). -/
def REPULSION_FACTOR : ℚ := 3 / 10

/-- Repulsion base force 1 (constants.ts, inlined in systems.ts). -/
def REPULSION_BASE : ℚ := 1

/-- Modelled from the spec: systems.ts imports SPLIT_VELOCITY from
constants.ts, which does not define it; the other variant implementations in
this repository (game.fixed.ts, tests/test-determinism.ts) define it as 15. -/
def SPLIT_VELOCITY : ℚ := 15

/-- Modelled from the spec: systems.ts imports SPLIT_CONTROL_DELAY from
constants.ts, which does not define it; the spec describes only a short
post-split lockout window.  The concrete value does not affect any claim
proved in this file. -/
def SPLIT_CONTROL_DELAY : Nat := 10

/-- Food pellet radius.  The entity definition module (entities.ts) is not
under src/src; the test harness registers the food entity with radius 8. -/
def FOOD_RADIUS : ℚ := 8

/-- The double-precision value of Math.SQRT2, as an exact rational.  The
build keeps Math.SQRT2 as a numeric constant (build.js float-constant list),
used by the split pass. -/
def SQRT2 : ℚ := 6369051672525773 / 4503599627370496

/-- Color palette (constants.ts). -/
def COLORS : List String :=
  ["#ff6b6b", "#ff8e72", "#ffa94d", "#ffd43b", "#a9e34b", "#69db7c",
   "#38d9a9", "#3bc9db", "#4dabf7", "#748ffc", "#9775fa", "#da77f2",
   "#f783ac", "#e64980", "#d6336c", "#c2255c", "#ff4500", "#32cd32",
   "#1e90ff", "#ff1493", "#00ced1", "#ffa500", "#9400d3", "#00ff7f"]

/-- JavaScript truncation toward zero, as in the (expr | 0) idiom. -/
def jsTrunc (q : ℚ) : ℤ :=
  if q < 0 then -(Int.floor (-q)) else Int.floor q

/-- Deterministic square root on rationals: the engine's integer-safe 16.16
fixed-point square root dSqrt, which the build substitutes for every
Math.sqrt call in the simulation. -/
def dSqrt (q : ℚ) : ℚ :=
  if q ≤ 0 then 0 else (Nat.sqrt (Int.floor (q * 4294967296)).toNat : ℚ) / 65536

/-- The Math.sqrt(x) || 1 idiom: a zero result is replaced by 1. -/
def dSqrtOr1 (q : ℚ) : ℚ :=
  let s := dSqrt q
  if s = 0 then 1 else s

/-- Modelled from the spec: the seeded PRNG is an external collaborator
(two 32-bit state words with save/restore, spec section 6); its generator
function is not under src/.  Only the facts that it is a pure function of
its state and that each draw advances the state once are used below. -/
structure RngState where
  s0 : Nat
  s1 : Nat
deriving DecidableEq

/-- Modelled from the spec: one draw of the seeded random-in-[0,1) source.
A xorshift-style mix on two 32-bit words; returns the value and the
advanced state. -/
def rngNext (r : RngState) : ℚ × RngState :=
  let t := (r.s0 ^^^ (r.s0 <<< 13)) % 4294967296
  let s1n := (t ^^^ (t >>> 7) ^^^ r.s1 ^^^ (r.s1 >>> 17)) % 4294967296
  (((s1n + r.s1) % 4294967296 : Nat) / (4294967296 : ℚ), ⟨r.s1, s1n⟩)

/-- Seed mixing used to initialise the PRNG from a numeric seed
(tests/test-determinism.ts, same algorithm as the engine's setSeed). -/
def seedToRng (seed : Nat) : RngState :=
  let seed := seed % 4294967296
  let seed := if seed = 0 then 1 else seed
  let mix : Nat → Nat := fun s =>
    let s := ((s >>> 16) ^^^ s) * 72718843 % 4294967296
    let s := ((s >>> 16) ^^^ s) * 72718843 % 4294967296
    ((s >>> 16) ^^^ s) % 4294967296
  let a := mix seed
  let b := mix (seed * 2654435769 % 4294967296)
  if a = 0 ∧ b = 0 then ⟨1, 2⟩ else ⟨a, b⟩

/-- A player-controlled cell entity: the components the simulation reads and
writes (Transform2D position, Sprite/Body2D radius, Body2D velocity, Player
owner, interned color, destruction flag). -/
structure Cell where
  id : Nat
  owner : Option Nat
  x : ℚ
  y : ℚ
  radius : ℚ
  vx : ℚ
  vy : ℚ
  color : String
  destroyed : Bool
deriving DecidableEq

/-- A food pellet entity (fixed radius FOOD_RADIUS). -/
structure Food where
  id : Nat
  x : ℚ
  y : ℚ
  color : String
  destroyed : Bool
deriving DecidableEq

/-- Per-client input as read by world.getInput: an optional target point and
a split button flag. -/
structure Input where
  target : Option (ℚ × ℚ)
  split : Bool
deriving DecidableEq

/-- Options record accepted by spawnCell (types.ts). -/
structure SpawnCellOptions where
  x : Option ℚ := none
  y : Option ℚ := none
  radius : Option ℚ := none
  color : Option String := none
  vx : Option ℚ := none
  vy : Option ℚ := none

/-- The full simulation state: entity store contents, monotone entity id
counter, frame counter, PRNG state, the two auxiliary side tables
(cellMergeFrame, cellSplitFrame of systems.ts), and the engine's client-id
interning tables (string of a numeric id, numeric id of a string), which the
engine owns and the simulation only queries. -/
structure GameState where
  cells : List Cell
  foods : List Food
  nextId : Nat
  frame : Nat
  rng : RngState
  mergeFrameMap : List (Nat × Nat)
  splitFrameMap : List (Nat × Nat)
  clientStr : Nat → String
  internClient : String → Nat

/-- Lookup in an insertion-ordered association list (JS Map.get). -/
def mapGet {β : Type} (m : List (Nat × β)) (k : Nat) : Option β :=
  match m with
  | [] => none
  | (k2, v) :: rest => if k2 = k then some v else mapGet rest k

/-- Lookup with a default (the map.get(k) || d idiom on numeric values). -/
def mapGetD (m : List (Nat × Nat)) (k d : Nat) : Nat :=
  match mapGet m k with
  | some v => v
  | none => d

/-- JS Map.set: overwrite the entry if the key is present, else append. -/
def mapSet {β : Type} (m : List (Nat × β)) (k : Nat) (v : β) : List (Nat × β) :=
  match m with
  | [] => [(k, v)]
  | (k2, w) :: rest => if k2 = k then (k2, v) :: rest else (k2, w) :: mapSet rest k v

/-- JS Map.delete: remove the entry with the given key, if present. -/
def mapErase {β : Type} (m : List (Nat × β)) (k : Nat) : List (Nat × β) :=
  match m with
  | [] => []
  | (k2, v) :: rest => if k2 = k then rest else (k2, v) :: mapErase rest k

/-- First cell with the given entity id (the entity store's id lookup). -/
def findCell (g : GameState) (i : Nat) : Option Cell :=
  g.cells.find? (fun c => c.id == i)

/-- Write a cell back into the store by id (mutation through an entity
reference): replaces the first cell carrying the same id. -/
def updateCellById (cs : List Cell) (c : Cell) : List Cell :=
  match cs with
  | [] => []
  | d :: rest => if d.id = c.id then c :: rest else d :: updateCellById rest c

/-- Client-id string for a numeric id, with the game.getClientIdString(n)
or-empty-string fallback of systems.ts built in: the interning table itself
returns the empty string for an unknown id. -/
def getClientIdStr (g : GameState) (numericId : Nat) : String :=
  g.clientStr numericId

/-- Comparator order used by compareStrings in systems.ts: plain
lexicographic string comparison. -/
def strLe (a b : String) : Bool := a ≤ b

/-- Stable ascending sort by entity id, as in the
[...game.query('cell')].sort((a, b) => a.id - b.id) idiom. -/
def cellLeId (a b : Cell) : Bool := a.id ≤ b.id

/-- The sorted live-cell enumeration all three passes start from. -/
def sortCellsById (cs : List Cell) : List Cell :=
  cs.mergeSort cellLeId

/-- Insert a cell at the end of its owner's group, creating the group at the
end of the map if the owner is new (JS Map insertion-order semantics). -/
def insertGroup (m : List (Nat × List Cell)) (cid : Nat) (c : Cell) :
    List (Nat × List Cell) :=
  match m with
  | [] => [(cid, [c])]
  | (k, cs) :: rest =>
    if k = cid then (k, cs ++ [c]) :: rest else (k, cs) :: insertGroup rest cid c

/-- The grouping loop body shared by the movement, split and merge passes:
walk the id-sorted cells, skipping destroyed cells and cells without an
owner, and group the rest by owner. -/
def groupByOwner : List Cell → List (Nat × List Cell) → List (Nat × List Cell)
  | [], m => m
  | c :: rest, m =>
    if c.destroyed then groupByOwner rest m
    else
      match c.owner with
      | none => groupByOwner rest m
      | some cid => groupByOwner rest (insertGroup m cid c)

/-- getPlayerCellsGrouped: all live owned cells, grouped by owner after the
ascending id sort. -/
def getPlayerCellsGrouped (g : GameState) : List (Nat × List Cell) :=
  groupByOwner (sortCellsById g.cells) []

/-- getSortedPlayers: the grouped entries, sorted by the owner's client-id
string with compareStrings. -/
def getSortedPlayers (g : GameState) : List (Nat × List Cell) :=
  (getPlayerCellsGrouped g).mergeSort
    (fun a b => strLe (getClientIdStr g a.1) (getClientIdStr g b.1))

/-- A 2D accumulator vector, one per cell, in the repulsion map. -/
structure Vec2 where
  vx : ℚ
  vy : ℚ
deriving DecidableEq

/-- The repulsion map: cell id to accumulated push vector. -/
abbrev RepMap := List (Nat × Vec2)

/-- Add a vector to an existing repulsion entry (repulsion.get(id)! followed
by += on its fields).  A missing key leaves the map unchanged; the passes
below only ever add to keys that were zero-initialised. -/
def repAdd (m : RepMap) (k : Nat) (v : Vec2) : RepMap :=
  match m with
  | [] => []
  | (k2, w) :: rest =>
    if k2 = k then (k2, ⟨w.vx + v.vx, w.vy + v.vy⟩) :: rest
    else (k2, w) :: repAdd rest k v

/-- Zero-initialise the repulsion entries of one owner's sibling list. -/
def repZero (m : RepMap) (sibs : List Cell) : RepMap :=
  sibs.foldl (fun m c => mapSet m c.id ⟨0, 0⟩) m

/-- The inner pair body of the repulsion loop: overlap test, deterministic
square root, push magnitude, and the symmetric accumulation of
plus-or-minus normal times force on the two cells. -/
def repPair (m : RepMap) (a b : Cell) : RepMap :=
  let dx := a.x - b.x
  let dy := a.y - b.y
  let distSq := dx * dx + dy * dy
  let minDist := a.radius + b.radius
  let minDistSq := minDist * minDist
  if distSq < minDistSq ∧ 1 < distSq then
    let dist := dSqrtOr1 distSq
    let overlap := minDist - dist
    let pushForce := overlap * REPULSION_FACTOR + REPULSION_BASE
    let nx := dx / dist
    let ny := dy / dist
    repAdd (repAdd m a.id ⟨nx * pushForce, ny * pushForce⟩) b.id
      ⟨-(nx * pushForce), -(ny * pushForce)⟩
  else m

/-- Inner loop: pair the fixed cell a with every later sibling. -/
def repInner (a : Cell) : List Cell → RepMap → RepMap
  | [], m => m
  | b :: rest, m => repInner a rest (repPair m a b)

/-- Outer loop over i with inner loop over j greater than i. -/
def repOuter : List Cell → RepMap → RepMap
  | [], m => m
  | a :: rest, m => repOuter rest (repInner a rest m)

/-- Per-owner repulsion: zero-initialise every sibling, then run the pair
loops when the owner has at least two cells. -/
def repForOwner (m : RepMap) (sibs : List Cell) : RepMap :=
  let m := repZero m sibs
  if sibs.length < 2 then m else repOuter sibs m

/-- The whole repulsion map, owners in canonical order. -/
def computeRepulsion (players : List (Nat × List Cell)) : RepMap :=
  players.foldl (fun m p => repForOwner m p.2) []

/-- Movement body for one cell: steer toward the input target beyond the
stop distance, add the repulsion vector, keep the velocity of recently split
cells, and clamp the position into the world. -/
def moveCell (inp : Option Input) (rep : RepMap) (frame : Nat)
    (sfMap : List (Nat × Nat)) (c : Cell) : Cell :=
  let tv : ℚ × ℚ :=
    match inp with
    | none => (0, 0)
    | some i2 =>
      match i2.target with
      | none => (0, 0)
      | some (tx, ty) =>
        let dx := tx - c.x
        let dy := ty - c.y
        let distSq := dx * dx + dy * dy
        let dist := dSqrtOr1 distSq
        let stopDist := c.radius * (1 / 5)
        if stopDist < dist then ((dx / dist) * SPEED, (dy / dist) * SPEED)
        else (0, 0)
  let av : ℚ × ℚ :=
    match mapGet rep c.id with
    | some r => (tv.1 + r.vx, tv.2 + r.vy)
    | none => tv
  let splitFrame := mapGetD sfMap c.id 0
  let c :=
    if (SPLIT_CONTROL_DELAY : ℤ) < (frame : ℤ) - (splitFrame : ℤ) then
      { c with vx := av.1, vy := av.2 }
    else c
  { c with
    x := max c.radius (min (WORLD_WIDTH - c.radius) c.x),
    y := max c.radius (min (WORLD_HEIGHT - c.radius) c.y) }

/-- The movement system: canonical grouping, repulsion, then per-cell
velocity and clamping, written back into the store. -/
def movementSystem (inputs : Nat → Option Input) (g : GameState) : GameState :=
  let sorted := getSortedPlayers g
  let rep := computeRepulsion sorted
  let cells2 := sorted.foldl
    (fun acc p =>
      p.2.foldl
        (fun acc c => updateCellById acc (moveCell (inputs p.1) rep g.frame g.splitFrameMap c))
        acc)
    g.cells
  { g with cells := cells2 }

/-- spawnFood: three PRNG draws in fixed order (color, x, y), then a food
entity appended to the store with a fresh id. -/
def spawnFoodState (g : GameState) : GameState :=
  let (cv, r1) := rngNext g.rng
  let colorStr := COLORS.getD (jsTrunc (cv * (COLORS.length : ℚ))).toNat ""
  let (xv, r2) := rngNext r1
  let x : ℚ := (jsTrunc (50 + xv * (WORLD_WIDTH - 100)) : ℚ)
  let (yv, r3) := rngNext r2
  let y : ℚ := (jsTrunc (50 + yv * (WORLD_HEIGHT - 100)) : ℚ)
  { g with
    foods := g.foods ++ [⟨g.nextId, x, y, colorStr, false⟩],
    nextId := g.nextId + 1,
    rng := r3 }

/-- spawnCell: color drawn only when the color option is absent or falsy,
position drawn only when absent; the radius option is applied unclamped when
truthy, the radius otherwise staying at the entity-definition default
INITIAL_RADIUS; an initial velocity is applied when either component is
supplied.  Returns the new cell and the updated state. -/
def spawnCell (g : GameState) (clientId : String) (options : SpawnCellOptions) :
    Cell × GameState :=
  let colorRes : String × RngState :=
    match options.color with
    | some s =>
      if s = "" then
        let r1 := rngNext g.rng
        (COLORS.getD (jsTrunc (r1.1 * (COLORS.length : ℚ))).toNat "", r1.2)
      else (s, g.rng)
    | none =>
      let r1 := rngNext g.rng
      (COLORS.getD (jsTrunc (r1.1 * (COLORS.length : ℚ))).toNat "", r1.2)
  let xRes : ℚ × RngState :=
    match options.x with
    | some xv => (xv, colorRes.2)
    | none =>
      let r2 := rngNext colorRes.2
      (((jsTrunc (100 + r2.1 * (WORLD_WIDTH - 200)) : ℤ) : ℚ), r2.2)
  let yRes : ℚ × RngState :=
    match options.y with
    | some yv => (yv, xRes.2)
    | none =>
      let r3 := rngNext xRes.2
      (((jsTrunc (100 + r3.1 * (WORLD_HEIGHT - 200)) : ℤ) : ℚ), r3.2)
  let cellRadius :=
    match options.radius with
    | some r => if r = 0 then INITIAL_RADIUS else r
    | none => INITIAL_RADIUS
  let vel : ℚ × ℚ :=
    if options.vx.isSome ∨ options.vy.isSome then
      (options.vx.getD 0, options.vy.getD 0)
    else (0, 0)
  let cell : Cell :=
    { id := g.nextId,
      owner := some (g.internClient clientId),
      x := xRes.1, y := yRes.1,
      radius := cellRadius,
      vx := vel.1, vy := vel.2,
      color := colorRes.1,
      destroyed := false }
  (cell, { g with cells := g.cells ++ [cell], nextId := g.nextId + 1, rng := yRes.2 })

/-- Live food entities (game.getEntitiesByType('food')). -/
def liveFoods (g : GameState) : List Food :=
  g.foods.filter (fun f => !f.destroyed)

/-- The food spawning system: one PRNG draw compared to the spawn chance,
then the food-count cap, then at most one spawnFood call. -/
def foodSpawnSystem (g : GameState) : GameState :=
  let (v, r2) := rngNext g.rng
  let g2 := { g with rng := r2 }
  if v < FOOD_SPAWN_CHANCE ∧ (liveFoods g2).length < MAX_FOOD then
    spawnFoodState g2
  else g2

/-- Split direction to the input target: normalised difference, falling back
to straight down on a zero distance. -/
def splitDir (target : ℚ × ℚ) (c : Cell) : ℚ × ℚ :=
  let dx := target.1 - c.x
  let dy := target.2 - c.y
  let dist := dSqrt (dx * dx + dy * dy)
  (if 0 < dist then dx / dist else 0, if 0 < dist then dy / dist else 1)

/-- The per-cell split body: shrink the original to radius over the square
root of two, then (when the owner's client-id string resolves) spawn the new
cell offset along the split direction with the same color and the split
velocity, and record merge-eligibility and split-lockout frames for both
ids. -/
def splitOneCell (cid : Nat) (target : ℚ × ℚ) (g : GameState) (cellId : Nat) :
    GameState :=
  match findCell g cellId with
  | none => g
  | some c =>
    let d := splitDir target c
    let newRadius := c.radius / SQRT2
    let g := { g with cells := updateCellById g.cells { c with radius := newRadius } }
    let clientIdStr := getClientIdStr g cid
    if clientIdStr = "" then g
    else
      let res := spawnCell g clientIdStr
        { x := some (c.x + d.1 * newRadius * 2),
          y := some (c.y + d.2 * newRadius * 2),
          radius := some newRadius,
          color := some c.color,
          vx := some (d.1 * SPLIT_VELOCITY),
          vy := some (d.2 * SPLIT_VELOCITY) }
      let newCell := res.1
      let g := res.2
      let mf := g.frame + MERGE_DELAY_FRAMES
      { g with
        mergeFrameMap := mapSet (mapSet g.mergeFrameMap cellId mf) newCell.id mf,
        splitFrameMap := mapSet (mapSet g.splitFrameMap cellId g.frame) newCell.id g.frame }

/-- The eligible-cell selection of the split pass: radius at least
MIN_SPLIT_RADIUS, truncated to the remaining per-player capacity, in the
canonical (id-ascending) order of the owner's current list. -/
def cellsToSplit (cells : List Cell) : List Cell :=
  (cells.filter (fun c => MIN_SPLIT_RADIUS ≤ c.radius)).take
    (MAX_CELLS_PER_PLAYER - cells.length)

/-- The split pass for one owner: gate on split flag, target presence and
the per-player cell cap, then split each selected cell. -/
def splitForOwner (inp : Option Input) (g : GameState) (cid : Nat)
    (cells : List Cell) : GameState :=
  match inp with
  | none => g
  | some i2 =>
    if ¬ i2.split ∨ i2.target = none then g
    else if MAX_CELLS_PER_PLAYER ≤ cells.length then g
    else
      match i2.target with
      | none => g
      | some target =>
        (cellsToSplit cells).foldl (fun g c => splitOneCell cid target g c.id) g

/-- The split system: canonical owner order, then the per-owner pass. -/
def splitSystem (inputs : Nat → Option Input) (g : GameState) : GameState :=
  (getSortedPlayers g).foldl (fun g p => splitForOwner (inputs p.1) g p.1 p.2) g

/-- Merge-pass local sort order: radius descending, entity id ascending on
ties (the (a, b) => b.radius - a.radius or a.id - b.id comparator). -/
def mergeLe (a b : Cell) : Bool :=
  if a.radius = b.radius then a.id ≤ b.id else b.radius < a.radius

/-- The merge inner-loop body for the pair (a, b): skip a destroyed partner,
skip while either merge-eligibility frame is in the future, then on an
actual distance below half the radius sum combine by area into a (clamped to
MAX_RADIUS), destroy b and drop b's merge-eligibility entry. -/
def mergeStep (frame : Nat) (mf : List (Nat × Nat)) (a b : Cell) :
    Cell × Cell × List (Nat × Nat) :=
  if b.destroyed then (a, b, mf)
  else if frame < mapGetD mf a.id 0 ∨ frame < mapGetD mf b.id 0 then (a, b, mf)
  else
    let dx := a.x - b.x
    let dy := a.y - b.y
    let dist := dSqrt (dx * dx + dy * dy)
    let mergeThreshold := (a.radius + b.radius) * (1 / 2)
    if dist < mergeThreshold then
      let areaA := a.radius * a.radius
      let areaB := b.radius * b.radius
      let newRadius := min (dSqrt (areaA + areaB)) MAX_RADIUS
      ({ a with radius := newRadius }, { b with destroyed := true }, mapErase mf b.id)
    else (a, b, mf)

/-- Inner merge loop: run the pair body of cell i against each later index,
reading current values from the evolving array. -/
def mergeInner (frame : Nat) (i : Nat) :
    List Nat → List Cell × List (Nat × Nat) → List Cell × List (Nat × Nat)
  | [], s => s
  | j :: js, (arr, mf) =>
    let a := arr.getD i ⟨0, none, 0, 0, 0, 0, 0, "", true⟩
    let b := arr.getD j ⟨0, none, 0, 0, 0, 0, 0, "", true⟩
    let r := mergeStep frame mf a b
    mergeInner frame i js ((arr.set i r.1).set j r.2.1, r.2.2)

/-- Outer merge loop: skip indices whose cell is already destroyed, else run
the inner loop over the later indices. -/
def mergeOuter (frame : Nat) (n : Nat) :
    List Nat → List Cell × List (Nat × Nat) → List Cell × List (Nat × Nat)
  | [], s => s
  | i :: is2, (arr, mf) =>
    let a := arr.getD i ⟨0, none, 0, 0, 0, 0, 0, "", true⟩
    if a.destroyed then mergeOuter frame n is2 (arr, mf)
    else mergeOuter frame n is2 (mergeInner frame i ((List.range n).drop (i + 1)) (arr, mf))

/-- The merge pass for one owner: local radius-descending sort, the nested
index loops, then the surviving array written back into the store. -/
def mergeForOwner (g : GameState) (cells : List Cell) : GameState :=
  if cells.length < 2 then g
  else
    let arr := cells.mergeSort mergeLe
    let n := arr.length
    let r := mergeOuter g.frame n (List.range n) (arr, g.mergeFrameMap)
    { g with
      cells := r.1.foldl updateCellById g.cells,
      mergeFrameMap := r.2 }

/-- The merge system: canonical owner order, then the per-owner pass. -/
def mergeSystem (g : GameState) : GameState :=
  (getSortedPlayers g).foldl (fun g p => mergeForOwner g p.2) g

/-- The cell-food contact handler: no-op on already consumed food, else grow
the cell by the food radius times FOOD_GROW, clamped to MAX_RADIUS, and
destroy the food. -/
def cellFoodCollision (c : Cell) (f : Food) : Cell × Food :=
  if f.destroyed then (c, f)
  else
    ({ c with radius := min (c.radius + FOOD_RADIUS * FOOD_GROW) MAX_RADIUS },
     { f with destroyed := true })

/-- The cell-cell contact handler, invoked with an (eater, prey) entity
pair: no-op on a shared owner; otherwise, when the eater radius exceeds the
prey radius times the eat ratio, grow the eater (clamped), destroy the prey
and drop the prey's merge-eligibility entry. -/
def cellCellCollision (a b : Cell) (mf : List (Nat × Nat)) :
    Cell × Cell × List (Nat × Nat) :=
  if a.owner = b.owner then (a, b, mf)
  else if b.radius * EAT_RATIO < a.radius then
    ({ a with radius := min (a.radius + b.radius * PLAYER_GROW) MAX_RADIUS },
     { b with destroyed := true },
     mapErase mf b.id)
  else (a, b, mf)

/-- The cell-cell handler acting on the stored state: look both entities up
by id, run the handler, write the results back.  The split-lockout table is
not touched by any code path of the handler. -/
def cellCellCollisionState (g : GameState) (aId bId : Nat) : GameState :=
  match findCell g aId, findCell g bId with
  | some a, some b =>
    let r := cellCellCollision a b g.mergeFrameMap
    { g with
      cells := updateCellById (updateCellById g.cells r.1) r.2.1,
      mergeFrameMap := r.2.2 }
  | _, _ => g

/-- getPlayerCells of systems.ts: the live cells of one numeric owner, in
store order. -/
def getPlayerCells (g : GameState) (clientId : Nat) : List Cell :=
  g.cells.filter (fun c => c.owner == some clientId && !c.destroyed)

/-- The onDisconnect handler of game.ts: destroy every cell of the leaving
client and drop each cell's merge-eligibility entry.  No code path touches
the split-lockout table. -/
def onDisconnect (g : GameState) (clientId : String) : GameState :=
  let internedId := g.internClient clientId
  (getPlayerCells g internedId).foldl
    (fun g c =>
      { g with
        cells := updateCellById g.cells { c with destroyed := true },
        mergeFrameMap := mapErase g.mergeFrameMap c.id })
    g

/-- One simulation frame: the four systems in registration order (movement,
food spawn, split, merge), then the engine's frame-counter increment. -/
def frameStep (inputs : Nat → Option Input) (g : GameState) : GameState :=
  let g := movementSystem inputs g
  let g := foodSpawnSystem g
  let g := splitSystem inputs g
  let g := mergeSystem g
  { g with frame := g.frame + 1 }

/-- Step N frames, looking the per-client inputs up by frame number. -/
def runFrames (inputs : Nat → Nat → Option Input) : Nat → GameState → GameState
  | 0, g => g
  | n + 1, g => runFrames inputs n (frameStep (inputs g.frame) g)

/-- The serialized observable state of one run: position, radius, velocity
and existence of every entity, in store order. -/
def serializeState (g : GameState) : List (Nat × ℚ × ℚ × ℚ × ℚ × ℚ × Bool) :=
  g.cells.map (fun c => (c.id, c.x, c.y, c.radius, c.vx, c.vy, c.destroyed)) ++
    g.foods.map (fun f => (f.id, f.x, f.y, FOOD_RADIUS, 0, 0, f.destroyed))

/-- Bulk food spawn at room creation (game.ts onRoomCreate). -/
def spawnInitialFood : Nat → GameState → GameState
  | 0, g => g
  | n + 1, g => spawnInitialFood n (spawnFoodState g)

/-- A simulation constructed from a numeric seed: empty store, seeded PRNG,
then the room-create bulk food spawn. -/
def initSim (seed : Nat) : GameState :=
  spawnInitialFood FOOD_COUNT
    { cells := [], foods := [], nextId := 0, frame := 0,
      rng := seedToRng seed, mergeFrameMap := [], splitFrameMap := [],
      clientStr := fun _ => "", internClient := fun _ => 0 }

/-- The deterministic square root never returns a negative value. -/
lemma dSqrt_nonneg (q : ℚ) : 0 ≤ dSqrt q := by
  unfold dSqrt
  split
  · exact le_refl 0
  · positivity

/-- MAX_RADIUS is nonnegative. -/
lemma max_radius_nonneg : (0 : ℚ) ≤ MAX_RADIUS := by norm_num [MAX_RADIUS]

/-- C1: for every fixed seed and fixed ordered per-client input sequence,
two independently constructed simulations stepped N frames produce identical
serialized state (position, radius, velocity, existence) for every entity,
for all N: the embedded frame step is a pure function of the state and the
input history, so equal constructions yield equal serializations. -/
theorem determinism_two_runs (seed : Nat) (inputs : Nat → Nat → Option Input)
    (N : Nat) (sim1 sim2 : GameState)
    (h1 : sim1 = initSim seed) (h2 : sim2 = initSim seed) :
    serializeState (runFrames inputs N sim1) =
      serializeState (runFrames inputs N sim2) := by
  rw [h1, h2]

/-- Witness for the determinism theorem at seed 1, empty inputs, 3 frames. -/
theorem determinism_two_runs_witness :
    initSim 1 = initSim 1 ∧
    serializeState (runFrames (fun _ _ => none) 3 (initSim 1)) =
      serializeState (runFrames (fun _ _ => none) 3 (initSim 1)) :=
  ⟨rfl, determinism_two_runs 1 (fun _ _ => none) 3 (initSim 1) (initSim 1) rfl rfl⟩

/-- C3: on a cell-cell contact, a same-owner pair is a no-op; otherwise the
prey is destroyed exactly when the eater's radius exceeds the prey's radius
times the eat ratio, in which case the eater grows by prey radius times
PLAYER_GROW clamped to MAX_RADIUS and the prey's merge-eligibility entry is
removed; the eater is never destroyed, and when neither radius exceeds the
other's radius times the eat ratio neither cell is destroyed in either
invocation order. -/
theorem eat_ratio_law (a b : Cell) (mf : List (Nat × Nat))
    (ha : a.destroyed = false) (hb : b.destroyed = false) :
    ((cellCellCollision a b mf).2.1.destroyed = true ↔
      a.owner ≠ b.owner ∧ b.radius * EAT_RATIO < a.radius) ∧
    (cellCellCollision a b mf).1.destroyed = false ∧
    (a.owner = b.owner → cellCellCollision a b mf = (a, b, mf)) ∧
    (a.owner ≠ b.owner → b.radius * EAT_RATIO < a.radius →
      (cellCellCollision a b mf).1.radius =
          min (a.radius + b.radius * PLAYER_GROW) MAX_RADIUS ∧
        (cellCellCollision a b mf).2.2 = mapErase mf b.id) ∧
    (¬ b.radius * EAT_RATIO < a.radius → ¬ a.radius * EAT_RATIO < b.radius →
      (cellCellCollision a b mf).2.1.destroyed = false ∧
        (cellCellCollision b a mf).2.1.destroyed = false) := by
  by_cases h1 : a.owner = b.owner
  · simp [cellCellCollision, h1, ha, hb]
  · by_cases h2 : b.radius * EAT_RATIO < a.radius
    · refine ⟨by simp [cellCellCollision, h1, h2], ?_, ?_, ?_, ?_⟩
      · simp [cellCellCollision, h1, h2, ha]
      · intro hc; exact absurd hc h1
      · intro _ _; exact ⟨by simp [cellCellCollision, h1, h2], by simp [cellCellCollision, h1, h2]⟩
      · intro hc _; exact absurd h2 hc
    · by_cases h3 : a.radius * EAT_RATIO < b.radius
      · refine ⟨by simp [cellCellCollision, h1, h2, hb], by simp [cellCellCollision, h1, h2, ha], ?_, ?_, ?_⟩
        · intro hc; exact absurd hc h1
        · intro _ hc; exact absurd hc h2
        · intro _ hc; exact absurd h3 hc
      · refine ⟨by simp [cellCellCollision, h1, h2, hb], by simp [cellCellCollision, h1, h2, ha], ?_, ?_, ?_⟩
        · intro hc; exact absurd hc h1
        · intro _ hc; exact absurd hc h2
        · intro _ _
          have h4 : b.owner ≠ a.owner := fun hc => h1 hc.symm
          exact ⟨by simp [cellCellCollision, h1, h2, hb], by simp [cellCellCollision, h4, h3, ha]⟩

/-- Witness for the eat-ratio law: owner 1 radius 50 against owner 2 radius
10 (50 exceeds 10 times 1.2, so the prey is destroyed). -/
theorem eat_ratio_law_witness :
    (⟨1, some 1, 0, 0, 50, 0, 0, "#ff6b6b", false⟩ : Cell).destroyed = false ∧
    ((cellCellCollision ⟨1, some 1, 0, 0, 50, 0, 0, "#ff6b6b", false⟩
        ⟨7, some 2, 0, 0, 10, 0, 0, "#ff8e72", false⟩ [(7, 5)]).2.1.destroyed = true ↔
      (⟨1, some 1, 0, 0, 50, 0, 0, "#ff6b6b", false⟩ : Cell).owner ≠
          (⟨7, some 2, 0, 0, 10, 0, 0, "#ff8e72", false⟩ : Cell).owner ∧
        (10 : ℚ) * EAT_RATIO < 50) :=
  ⟨rfl, (eat_ratio_law ⟨1, some 1, 0, 0, 50, 0, 0, "#ff6b6b", false⟩
    ⟨7, some 2, 0, 0, 10, 0, 0, "#ff8e72", false⟩ [(7, 5)] rfl rfl).1⟩

/-- An empty simulation state, used as the base of concrete test states. -/
def baseState : GameState :=
  { cells := [], foods := [], nextId := 0, frame := 0, rng := ⟨1, 2⟩,
    mergeFrameMap := [], splitFrameMap := [],
    clientStr := fun _ => "", internClient := fun _ => 0 }

/-- C10: the food spawning system consumes exactly one PRNG draw before the
food-count cap is consulted; when the live food count is at or above
MAX_FOOD, or the draw fails the probability check, no entity is spawned and
the only state change is that single PRNG advance. -/
theorem food_spawn_gated (g : GameState)
    (h : MAX_FOOD ≤ (liveFoods g).length ∨ ¬ (rngNext g.rng).1 < FOOD_SPAWN_CHANCE) :
    foodSpawnSystem g = { g with rng := (rngNext g.rng).2 } := by
  unfold foodSpawnSystem
  rcases he : rngNext g.rng with ⟨v, r2⟩
  rw [he] at h
  simp only
  rw [if_neg]
  rintro ⟨hv, hn⟩
  rcases h with h | h
  · have hl : liveFoods { g with rng := r2 } = liveFoods g := rfl
    rw [hl] at hn
    omega
  · exact h hv

/-- Witness for the food-spawn gate: a PRNG state whose next draw is at
least the spawn chance, so the system only advances the PRNG. -/
theorem food_spawn_gated_witness :
    (MAX_FOOD ≤ (liveFoods { baseState with rng := ⟨0, 3000000000⟩ }).length ∨
      ¬ (rngNext (⟨0, 3000000000⟩ : RngState)).1 < FOOD_SPAWN_CHANCE) ∧
    foodSpawnSystem { baseState with rng := ⟨0, 3000000000⟩ } =
      { baseState with rng := (rngNext (⟨0, 3000000000⟩ : RngState)).2 } :=
  ⟨Or.inr (by simp [rngNext, FOOD_SPAWN_CHANCE]; norm_num),
   food_spawn_gated { baseState with rng := ⟨0, 3000000000⟩ }
     (Or.inr (by simp [rngNext, FOOD_SPAWN_CHANCE, baseState]; norm_num))⟩

/-- Counterexample to C8 as stated: spawnCell applies a caller-supplied
radius option without clamping, so a requested radius of 300 produces a live
cell whose radius exceeds MAX_RADIUS. -/
theorem spawnCell_radius_unclamped_cex :
    (spawnCell baseState "p1"
        { x := some 100, y := some 100, radius := some 300,
          color := some ("#ff6b6b") }).1.radius = 300 ∧
    MAX_RADIUS < 300 ∧
    ((spawnCell baseState "p1"
        { x := some 100, y := some 100, radius := some 300,
          color := some ("#ff6b6b") }).2.cells.any
      (fun c => !c.destroyed && decide (MAX_RADIUS < c.radius))) = true := by
  refine ⟨rfl, by norm_num [MAX_RADIUS], ?_⟩
  rfl

/-- C8 (amended): the growth operations of the core (eat food, eat cell,
merge) clamp the resulting radius to MAX_RADIUS and keep it in
[0, MAX_RADIUS] for in-range inputs, and the split shrink stays in range;
spawnCell, however, applies a caller-supplied nonzero radius option
unclamped. -/
theorem radius_growth_clamped (c : Cell) (f : Food) (b : Cell)
    (mf : List (Nat × Nat)) (frame : Nat)
    (hc0 : 0 ≤ c.radius) (hcM : c.radius ≤ MAX_RADIUS) (hb0 : 0 ≤ b.radius) :
    (0 ≤ (cellFoodCollision c f).1.radius ∧
      (cellFoodCollision c f).1.radius ≤ MAX_RADIUS) ∧
    (0 ≤ (cellCellCollision c b mf).1.radius ∧
      (cellCellCollision c b mf).1.radius ≤ MAX_RADIUS) ∧
    (0 ≤ (mergeStep frame mf c b).1.radius ∧
      (mergeStep frame mf c b).1.radius ≤ MAX_RADIUS) ∧
    (0 ≤ c.radius / SQRT2 ∧ c.radius / SQRT2 ≤ MAX_RADIUS) ∧
    (∀ (g : GameState) (s : String) (r : ℚ), r ≠ 0 →
      (spawnCell g s { radius := some r }).1.radius = r) := by
  have hM0 : (0 : ℚ) ≤ MAX_RADIUS := max_radius_nonneg
  refine ⟨?_, ?_, ?_, ?_, ?_⟩
  · unfold cellFoodCollision
    split
    · exact ⟨hc0, hcM⟩
    · constructor
      · simp only [le_min_iff]
        constructor
        · have : (0 : ℚ) ≤ FOOD_RADIUS * FOOD_GROW := by norm_num [FOOD_RADIUS, FOOD_GROW]
          linarith
        · exact hM0
      · exact min_le_right _ _
  · unfold cellCellCollision
    split
    · exact ⟨hc0, hcM⟩
    · split
      · constructor
        · simp only [le_min_iff]
          constructor
          · have : (0 : ℚ) ≤ b.radius * PLAYER_GROW := by
              have : (0 : ℚ) ≤ PLAYER_GROW := by norm_num [PLAYER_GROW]
              positivity
            linarith
          · exact hM0
        · exact min_le_right _ _
      · exact ⟨hc0, hcM⟩
  · unfold mergeStep
    split
    · exact ⟨hc0, hcM⟩
    · split
      · exact ⟨hc0, hcM⟩
      · dsimp only
        split
        · constructor
          · simp only [le_min_iff]
            exact ⟨dSqrt_nonneg _, hM0⟩
          · exact min_le_right _ _
        · exact ⟨hc0, hcM⟩
  · have hs1 : (1 : ℚ) ≤ SQRT2 := by norm_num [SQRT2]
    constructor
    · apply div_nonneg hc0
      linarith
    · calc c.radius / SQRT2 ≤ c.radius := by
            apply div_le_self hc0 hs1
        _ ≤ MAX_RADIUS := hcM
  · intro g s r hr
    simp [spawnCell, hr]

/-- Witness for the amended radius-bounds theorem: a radius-20 cell, a live
food pellet, and a radius-10 enemy. -/
theorem radius_growth_clamped_witness :
    ((0 : ℚ) ≤ 20 ∧ (20 : ℚ) ≤ MAX_RADIUS ∧ (0 : ℚ) ≤ 10) ∧
    (0 ≤ (cellFoodCollision ⟨1, some 1, 0, 0, 20, 0, 0, "#ff6b6b", false⟩
        ⟨2, 0, 0, "#ff8e72", false⟩).1.radius ∧
      (cellFoodCollision ⟨1, some 1, 0, 0, 20, 0, 0, "#ff6b6b", false⟩
        ⟨2, 0, 0, "#ff8e72", false⟩).1.radius ≤ MAX_RADIUS) :=
  ⟨⟨by norm_num, by norm_num [MAX_RADIUS], by norm_num⟩,
   (radius_growth_clamped ⟨1, some 1, 0, 0, 20, 0, 0, "#ff6b6b", false⟩
      ⟨2, 0, 0, "#ff8e72", false⟩ ⟨3, some 2, 0, 0, 10, 0, 0, "#ffa94d", false⟩
      [] 0 (by norm_num) (by norm_num [MAX_RADIUS]) (by norm_num)).1⟩

/-- C9: no destruction path of the code prunes the split-lockout table: the
cell-cell eat handler, the disconnect handler and the per-owner merge pass
all leave cellSplitFrame exactly as it was, so a destroyed cell's
split-lockout entry survives the frame, contradicting the claimed invariant
(all three paths do prune the merge-eligibility table; only the split-lockout
half of the claim fails). -/
theorem split_lockout_never_pruned (g : GameState) (aId bId : Nat) (s : String)
    (cells : List Cell) :
    (cellCellCollisionState g aId bId).splitFrameMap = g.splitFrameMap ∧
    (onDisconnect g s).splitFrameMap = g.splitFrameMap ∧
    (mergeForOwner g cells).splitFrameMap = g.splitFrameMap := by
  refine ⟨?_, ?_, ?_⟩
  · unfold cellCellCollisionState
    rcases findCell g aId with _ | a
    · rfl
    · rcases findCell g bId with _ | b
      · rfl
      · rfl
  · have hfold : ∀ (f : GameState → Cell → GameState),
        (∀ g2 c, (f g2 c).splitFrameMap = g2.splitFrameMap) →
        ∀ (l : List Cell) (g2 : GameState),
          (List.foldl f g2 l).splitFrameMap = g2.splitFrameMap := by
      intro f hf l
      induction l with
      | nil => intro g2; rfl
      | cons c rest ih => intro g2; rw [List.foldl_cons, ih, hf]
    exact hfold
      (fun g2 c =>
        { g2 with
          cells := updateCellById g2.cells { c with destroyed := true },
          mergeFrameMap := mapErase g2.mergeFrameMap c.id })
      (fun _ _ => rfl) (getPlayerCells g (g.internClient s)) g
  · unfold mergeForOwner
    split
    · rfl
    · rfl

/-- Keys of a repulsion map. -/
def repKeys (m : RepMap) : List Nat := m.map Prod.fst

/-- Componentwise sum of all accumulated repulsion vectors. -/
def repSum (m : RepMap) : ℚ × ℚ :=
  ((m.map (fun p => p.2.vx)).sum, (m.map (fun p => p.2.vy)).sum)

/-- Accumulating into a repulsion map does not change its key set. -/
lemma repAdd_keys (m : RepMap) (k : Nat) (v : Vec2) :
    repKeys (repAdd m k v) = repKeys m := by
  induction m with
  | nil => rfl
  | cons p rest ih =>
    obtain ⟨k2, w⟩ := p
    unfold repAdd
    by_cases h : k2 = k
    · simp [h, repKeys]
    · simp only [if_neg h]
      simpa [repKeys] using ih

/-- Accumulating a vector onto a present key adds it to the total sum. -/
lemma repAdd_sum (m : RepMap) (k : Nat) (v : Vec2) (h : k ∈ repKeys m) :
    repSum (repAdd m k v) = ((repSum m).1 + v.vx, (repSum m).2 + v.vy) := by
  induction m with
  | nil => simp [repKeys] at h
  | cons p rest ih =>
    obtain ⟨k2, w⟩ := p
    unfold repAdd
    by_cases h2 : k2 = k
    · simp only [if_pos h2, repSum, List.map_cons, List.sum_cons, Prod.mk.injEq]
      constructor <;> ring
    · simp only [if_neg h2]
      have h3 : k ∈ repKeys rest := by
        rcases List.mem_cons.mp h with h4 | h4
        · exact absurd h4.symm h2
        · exact h4
      have h6 := ih h3
      simp only [repSum, List.map_cons, List.sum_cons] at *
      have h4 := congrArg Prod.fst h6
      have h5 := congrArg Prod.snd h6
      simp at h4 h5
      simp only [Prod.mk.injEq]
      constructor
      · rw [h4]; ring
      · rw [h5]; ring

/-- The pair body does not change the key set. -/
lemma repPair_keys (m : RepMap) (a b : Cell) :
    repKeys (repPair m a b) = repKeys m := by
  unfold repPair
  dsimp only
  split
  · rw [repAdd_keys, repAdd_keys]
  · rfl

/-- The pair body preserves the total sum: it adds some vector to cell a's
entry and the exact negation to cell b's entry (or does nothing). -/
lemma repPair_sum (m : RepMap) (a b : Cell)
    (ha : a.id ∈ repKeys m) (hb : b.id ∈ repKeys m) :
    repSum (repPair m a b) = repSum m := by
  unfold repPair
  dsimp only
  split
  · rw [repAdd_sum, repAdd_sum]
    · simp
    · exact ha
    · rw [repAdd_keys]; exact hb
  · rfl

/-- The inner pair loop preserves keys. -/
lemma repInner_keys (a : Cell) (bs : List Cell) (m : RepMap) :
    repKeys (repInner a bs m) = repKeys m := by
  induction bs generalizing m with
  | nil => rfl
  | cons b rest ih => rw [repInner, ih, repPair_keys]

/-- The inner pair loop preserves the total sum. -/
lemma repInner_sum (a : Cell) (bs : List Cell) (m : RepMap)
    (ha : a.id ∈ repKeys m) (hbs : ∀ c ∈ bs, c.id ∈ repKeys m) :
    repSum (repInner a bs m) = repSum m := by
  induction bs generalizing m with
  | nil => rfl
  | cons b rest ih =>
    rw [repInner, ih, repPair_sum]
    · exact ha
    · exact hbs b (List.mem_cons_self b rest)
    · rw [repPair_keys]; exact ha
    · intro c hc
      rw [repPair_keys]
      exact hbs c (List.mem_cons_of_mem b hc)

/-- The outer pair loop preserves the total sum. -/
lemma repOuter_sum (cs : List Cell) (m : RepMap)
    (hcs : ∀ c ∈ cs, c.id ∈ repKeys m) :
    repSum (repOuter cs m) = repSum m := by
  induction cs generalizing m with
  | nil => rfl
  | cons a rest ih =>
    rw [repOuter, ih, repInner_sum]
    · exact hcs a (List.mem_cons_self a rest)
    · intro c hc; exact hcs c (List.mem_cons_of_mem a hc)
    · intro c hc
      rw [repInner_keys]
      exact hcs c (List.mem_cons_of_mem a hc)

/-- Setting a key makes it present. -/
lemma mapSet_mem_self {β : Type} (m : List (Nat × β)) (k : Nat) (v : β) :
    k ∈ (mapSet m k v).map Prod.fst := by
  induction m with
  | nil => simp [mapSet]
  | cons p rest ih =>
    obtain ⟨k2, w⟩ := p
    unfold mapSet
    by_cases h : k2 = k
    · simp [h]
    · simp only [if_neg h, List.map_cons, List.mem_cons]
      exact Or.inr ih

/-- Setting a key keeps every present key present. -/
lemma mapSet_mem_mono {β : Type} (m : List (Nat × β)) (k j : Nat) (v : β)
    (h : j ∈ m.map Prod.fst) : j ∈ (mapSet m k v).map Prod.fst := by
  induction m with
  | nil => simp [mapSet] at h
  | cons p rest ih =>
    obtain ⟨k2, w⟩ := p
    unfold mapSet
    by_cases h2 : k2 = k
    · simpa [h2] using h
    · simp only [if_neg h2, List.map_cons, List.mem_cons]
      rcases List.mem_cons.mp h with h3 | h3
      · exact Or.inl h3
      · exact Or.inr (ih h3)

/-- Zero-initialisation keeps every present key present. -/
lemma repZero_mem_mono (sibs : List Cell) (m : RepMap) (j : Nat)
    (h : j ∈ repKeys m) : j ∈ repKeys (repZero m sibs) := by
  induction sibs generalizing m with
  | nil => exact h
  | cons c rest ih =>
    unfold repZero at *
    simp only [List.foldl_cons]
    exact ih _ (mapSet_mem_mono _ _ _ _ h)

/-- After zero-initialisation every sibling id is a key. -/
lemma repZero_mem (sibs : List Cell) (m : RepMap) :
    ∀ c ∈ sibs, c.id ∈ repKeys (repZero m sibs) := by
  induction sibs generalizing m with
  | nil => intro c hc; simp at hc
  | cons s rest ih =>
    intro c hc
    rcases List.mem_cons.mp hc with h | h
    · subst h
      unfold repZero
      simp only [List.foldl_cons]
      exact repZero_mem_mono rest _ _ (mapSet_mem_self _ _ _)
    · unfold repZero
      simp only [List.foldl_cons]
      exact ih _ c h

/-- Setting a zero vector preserves the all-zero property of a map. -/
lemma mapSet_zero_values (m : RepMap) (k : Nat)
    (h : ∀ p ∈ m, p.2 = Vec2.mk 0 0) :
    ∀ p ∈ mapSet m k ⟨0, 0⟩, p.2 = Vec2.mk 0 0 := by
  induction m with
  | nil =>
    intro p hp
    simp [mapSet] at hp
    rw [hp]
  | cons q rest ih =>
    obtain ⟨k2, w⟩ := q
    unfold mapSet
    by_cases h2 : k2 = k
    · simp only [if_pos h2]
      intro p hp
      rcases List.mem_cons.mp hp with h3 | h3
      · rw [h3]
      · exact h p (List.mem_cons_of_mem _ h3)
    · simp only [if_neg h2]
      intro p hp
      rcases List.mem_cons.mp hp with h3 | h3
      · rw [h3]; exact h (k2, w) (List.mem_cons_self _ _)
      · exact ih (fun p hp => h p (List.mem_cons_of_mem _ hp)) p h3

/-- After zero-initialising an all-zero map, every value is still zero. -/
lemma repZero_values (sibs : List Cell) (m : RepMap)
    (h : ∀ p ∈ m, p.2 = Vec2.mk 0 0) :
    ∀ p ∈ repZero m sibs, p.2 = Vec2.mk 0 0 := by
  induction sibs generalizing m with
  | nil => exact h
  | cons c rest ih =>
    unfold repZero at *
    simp only [List.foldl_cons]
    exact ih _ (mapSet_zero_values m c.id h)

/-- An all-zero map sums to zero. -/
lemma repSum_zero (m : RepMap) (h : ∀ p ∈ m, p.2 = Vec2.mk 0 0) :
    repSum m = (0, 0) := by
  induction m with
  | nil => rfl
  | cons p rest ih =>
    have hp := h p (List.mem_cons_self _ _)
    have := ih (fun q hq => h q (List.mem_cons_of_mem _ hq))
    simp only [repSum, List.map_cons, List.sum_cons, hp] at *
    have h1 := congrArg Prod.fst this
    have h2 := congrArg Prod.snd this
    simp at h1 h2
    simp [h1, h2]

/-- C7: each overlapping same-owner pair accumulates on cell i the exact
negation of what it accumulates on cell j, so the componentwise sum of all
repulsion vectors over any owner's sibling set is exactly zero. -/
theorem repulsion_zero_sum (sibs : List Cell) (m : RepMap) (a b : Cell) :
    repSum (repForOwner [] sibs) = (0, 0) ∧
    (repPair m a b = m ∨
      ∃ v : Vec2, repPair m a b =
        repAdd (repAdd m a.id v) b.id ⟨-v.vx, -v.vy⟩) := by
  constructor
  · unfold repForOwner
    have hz : repSum (repZero [] sibs) = (0, 0) :=
      repSum_zero _ (repZero_values sibs [] (by intro p hp; simp at hp))
    split
    · exact hz
    · rw [repOuter_sum _ _ (repZero_mem sibs [])]
      exact hz
  · unfold repPair
    dsimp only
    split
    · right
      exact ⟨_, rfl⟩
    · left; rfl

/-- The grouping predicate: a live cell belonging to owner k. -/
def ownedBy (k : Nat) (c : Cell) : Bool := !c.destroyed && c.owner == some k

/-- Group lookup in the owner map (empty list for a missing owner). -/
def groupGet (m : List (Nat × List Cell)) (k : Nat) : List Cell :=
  match m with
  | [] => []
  | (k2, g) :: rest => if k2 = k then g else groupGet rest k

/-- Inserting into a group appends to exactly that owner's list. -/
lemma insertGroup_get (m : List (Nat × List Cell)) (cid : Nat) (c : Cell)
    (k : Nat) :
    groupGet (insertGroup m cid c) k =
      if k = cid then groupGet m k ++ [c] else groupGet m k := by
  induction m with
  | nil =>
    by_cases h : k = cid
    · subst h
      simp [insertGroup, groupGet]
    · have h2 : ¬ cid = k := fun h3 => h h3.symm
      simp [insertGroup, groupGet, h, h2]
  | cons p rest ih =>
    obtain ⟨k2, g⟩ := p
    unfold insertGroup
    by_cases h : k2 = cid
    · subst h
      by_cases hk : k = k2
      · subst hk
        simp [groupGet]
      · have hk2 : ¬ k2 = k := fun h2 => hk h2.symm
        simp [groupGet, hk, hk2]
    · simp only [if_neg h]
      by_cases h3 : k2 = k
      · subst h3
        have h4 : ¬ k2 = cid := h
        simp [groupGet, h4]
      · simp [groupGet, h3, ih]

/-- Keys of the owner map after an insertion: unchanged when the owner is
already present, else the owner appended. -/
lemma insertGroup_keys (m : List (Nat × List Cell)) (cid : Nat) (c : Cell) :
    (insertGroup m cid c).map Prod.fst =
      if cid ∈ m.map Prod.fst then m.map Prod.fst else m.map Prod.fst ++ [cid] := by
  induction m with
  | nil => simp [insertGroup]
  | cons p rest ih =>
    obtain ⟨k2, g⟩ := p
    unfold insertGroup
    by_cases h : k2 = cid
    · simp [h]
    · have h4 : ¬ cid = k2 := fun h3 => h h3.symm
      simp only [if_neg h, List.map_cons, ih]
      by_cases h2 : cid ∈ rest.map Prod.fst
      · simp [h2, h4]
      · simp [h2, h4]

/-- Insertion preserves distinctness of the owner keys. -/
lemma insertGroup_keys_nodup (m : List (Nat × List Cell)) (cid : Nat) (c : Cell)
    (h : (m.map Prod.fst).Nodup) : ((insertGroup m cid c).map Prod.fst).Nodup := by
  rw [insertGroup_keys]
  by_cases h2 : cid ∈ m.map Prod.fst
  · simpa [h2] using h
  · simp only [if_neg h2]
    refine List.Nodup.append h (List.nodup_singleton cid) ?_
    intro a ha hb
    simp only [List.mem_singleton] at hb
    subst hb
    exact h2 ha

/-- The grouping loop preserves distinctness of the owner keys. -/
lemma groupByOwner_keys_nodup (cs : List Cell) (m : List (Nat × List Cell))
    (h : (m.map Prod.fst).Nodup) :
    ((groupByOwner cs m).map Prod.fst).Nodup := by
  induction cs generalizing m with
  | nil => exact h
  | cons c rest ih =>
    unfold groupByOwner
    split
    · exact ih m h
    · split
      · exact ih m h
      · exact ih _ (insertGroup_keys_nodup _ _ _ h)

/-- With distinct keys, membership in the owner map determines the lookup. -/
lemma groupGet_of_mem (m : List (Nat × List Cell)) (k : Nat) (g : List Cell)
    (hnd : (m.map Prod.fst).Nodup) (h : (k, g) ∈ m) : groupGet m k = g := by
  induction m with
  | nil => simp at h
  | cons p rest ih =>
    obtain ⟨k2, g2⟩ := p
    rw [List.map_cons] at hnd
    have hnd2 := List.nodup_cons.mp hnd
    rcases List.mem_cons.mp h with h2 | h2
    · have hk : k2 = k := (congrArg Prod.fst h2).symm
      have hg : g2 = g := (congrArg Prod.snd h2).symm
      unfold groupGet
      rw [if_pos hk]
      exact hg
    · have hk2 : ¬ k2 = k := by
        intro h3
        subst h3
        have h4 : k2 ∈ rest.map Prod.fst := by
          exact List.mem_map_of_mem Prod.fst h2
        exact hnd2.1 h4
      unfold groupGet
      rw [if_neg hk2]
      exact ih hnd2.2 h2

/-- The grouping loop: the final group of an owner is its accumulated group
followed by the live cells it owns, in input order. -/
lemma groupByOwner_get (cs : List Cell) (m : List (Nat × List Cell)) (k : Nat) :
    groupGet (groupByOwner cs m) k = groupGet m k ++ cs.filter (ownedBy k) := by
  induction cs generalizing m with
  | nil => simp [groupByOwner]
  | cons c rest ih =>
    unfold groupByOwner
    split
    · rename_i hdes
      have h2 : ownedBy k c = false := by
        simp [ownedBy, hdes]
      rw [ih, List.filter_cons, h2]
      simp
    · rename_i hdes
      split
      · rename_i hown
        have h2 : ownedBy k c = false := by
          simp [ownedBy, hown]
        rw [ih, List.filter_cons, h2]
        simp
      · rename_i cid hown
        rw [ih, insertGroup_get, List.filter_cons]
        have hdes2 : c.destroyed = false := by simpa using hdes
        by_cases h3 : k = cid
        · subst h3
          have h4 : ownedBy k c = true := by
            simp [ownedBy, hown, hdes2]
          rw [if_pos rfl, h4]
          simp
        · have h4 : ownedBy k c = false := by
            simp [ownedBy, hown, hdes2]
            intro h5
            exact absurd h5.symm h3
          rw [if_neg h3, h4]
          simp

/-- Every group produced by getPlayerCellsGrouped is the filter of the
id-sorted live cells owned by its key. -/
lemma getPlayerCellsGrouped_eq_filter (g : GameState) (k : Nat) (gl : List Cell)
    (h : (k, gl) ∈ getPlayerCellsGrouped g) :
    gl = (sortCellsById g.cells).filter (ownedBy k) := by
  have hnd := groupByOwner_keys_nodup (sortCellsById g.cells) [] (by simp)
  have h2 := groupGet_of_mem _ _ _ hnd h
  rw [groupByOwner_get] at h2
  simpa using h2.symm

/-- The id-sorted cell list is ascending in entity id. -/
lemma sortCellsById_sorted (cs : List Cell) :
    List.Pairwise (fun a b : Cell => a.id ≤ b.id) (sortCellsById cs) := by
  have h := @List.sorted_mergeSort _ cellLeId
    (fun a b c h1 h2 => by
      simp only [cellLeId, decide_eq_true_eq] at *
      omega)
    (fun a b => by
      simp only [cellLeId, Bool.or_eq_true, decide_eq_true_eq]
      omega)
    cs
  exact h.imp (by simp [cellLeId])

/-- C2: the ownership grouping used by the movement, split and merge passes
produces the (owner, cells) pairs sorted by the owner's client-id string in
lexicographic order, with each owner's list sorted by entity id ascending
and containing no destroyed or ownerless cell. -/
theorem grouping_canonical_order (g : GameState) :
    List.Pairwise
      (fun a b : Nat × List Cell =>
        getClientIdStr g a.1 ≤ getClientIdStr g b.1)
      (getSortedPlayers g) ∧
    ∀ p ∈ getSortedPlayers g,
      List.Pairwise (fun a b : Cell => a.id ≤ b.id) p.2 ∧
      ∀ c ∈ p.2, c.destroyed = false ∧ c.owner = some p.1 := by
  constructor
  · have h := @List.sorted_mergeSort _
      (fun a b : Nat × List Cell =>
        strLe (getClientIdStr g a.1) (getClientIdStr g b.1))
      (fun a b c h1 h2 => by
        simp only [strLe, decide_eq_true_eq] at *
        exact le_trans h1 h2)
      (fun a b => by
        simp only [strLe, Bool.or_eq_true, decide_eq_true_eq]
        exact le_total _ _)
      (getPlayerCellsGrouped g)
    exact h.imp (by simp [strLe])
  · intro p hp
    have hmem : p ∈ getPlayerCellsGrouped g :=
      (List.Perm.mem_iff (List.mergeSort_perm (getPlayerCellsGrouped g) _)).mp hp
    obtain ⟨k, gl⟩ := p
    have hfil := getPlayerCellsGrouped_eq_filter g k gl hmem
    constructor
    · rw [hfil]
      exact List.Pairwise.filter _ (sortCellsById_sorted g.cells)
    · intro c hc
      rw [hfil] at hc
      have := List.of_mem_filter hc
      simp only [ownedBy, Bool.and_eq_true, Bool.not_eq_true', beq_iff_eq] at this
      exact this

/-- C4: in the merge pass, a pair of same-owner cells taken from the
radius-descending id-ascending local sort, with the partner not destroyed
and both past their merge-eligibility frames, merges when the actual
distance is below half the radius sum: the surviving cell receives
min of the area-combined radius and MAX_RADIUS, the partner is destroyed,
and the partner's merge-eligibility entry is removed; and the local sort is
indeed radius-descending with ascending ids on ties. -/
theorem merge_pair_resolution (frame : Nat) (mf : List (Nat × Nat)) (a b : Cell)
    (cells : List Cell)
    (hb : b.destroyed = false)
    (hA : mapGetD mf a.id 0 ≤ frame) (hB : mapGetD mf b.id 0 ≤ frame)
    (hd : dSqrt ((a.x - b.x) * (a.x - b.x) + (a.y - b.y) * (a.y - b.y)) <
      (a.radius + b.radius) * (1 / 2)) :
    mergeStep frame mf a b =
      ({ a with radius := min (dSqrt (a.radius * a.radius + b.radius * b.radius)) MAX_RADIUS },
       { b with destroyed := true }, mapErase mf b.id) ∧
    List.Pairwise
      (fun x y : Cell => y.radius < x.radius ∨ (x.radius = y.radius ∧ x.id ≤ y.id))
      (cells.mergeSort mergeLe) := by
  constructor
  · unfold mergeStep
    rw [if_neg (by simp [hb]), if_neg (by omega)]
    dsimp only
    rw [if_pos hd]
  · have h := @List.sorted_mergeSort _ mergeLe
      (fun x y z h1 h2 => by
        simp only [mergeLe] at h1 h2 ⊢
        by_cases e1 : x.radius = y.radius <;> by_cases e2 : y.radius = z.radius
        · rw [if_pos e1] at h1
          rw [if_pos e2] at h2
          rw [if_pos (e1.trans e2)]
          simp only [decide_eq_true_eq] at h1 h2 ⊢
          omega
        · rw [if_pos e1] at h1
          rw [if_neg e2] at h2
          simp only [decide_eq_true_eq] at h2
          have e3 : ¬ x.radius = z.radius := by
            rw [e1]
            exact ne_of_gt h2
          rw [if_neg e3]
          simp only [decide_eq_true_eq]
          rw [e1]
          exact h2
        · rw [if_neg e1] at h1
          rw [if_pos e2] at h2
          simp only [decide_eq_true_eq] at h1
          have e3 : ¬ x.radius = z.radius := by
            rw [← e2]
            exact ne_of_gt h1
          rw [if_neg e3]
          simp only [decide_eq_true_eq]
          rw [← e2]
          exact h1
        · rw [if_neg e1] at h1
          rw [if_neg e2] at h2
          simp only [decide_eq_true_eq] at h1 h2
          have e3 : ¬ x.radius = z.radius := by
            intro h3
            rw [h3] at h1
            exact absurd (h2.trans h1) (lt_irrefl _)
          rw [if_neg e3]
          simp only [decide_eq_true_eq]
          exact h2.trans h1)
      (fun x y => by
        simp only [mergeLe, Bool.or_eq_true]
        by_cases e : x.radius = y.radius
        · rw [if_pos e, if_pos e.symm]
          simp only [decide_eq_true_eq]
          omega
        · rw [if_neg e, if_neg (fun h2 => e h2.symm)]
          simp only [decide_eq_true_eq]
          exact (lt_or_gt_of_ne e).symm)
      cells
    exact h.imp (by
      intro x y hxy
      simp only [mergeLe] at hxy
      split at hxy <;> rename_i e
      · right
        exact ⟨e, by simpa using hxy⟩
      · left
        simpa using hxy)

/-- Concrete evaluation of the deterministic square root at 25. -/
lemma dSqrt_twentyfive : dSqrt 25 = 5 := by
  unfold dSqrt
  rw [if_neg (by norm_num)]
  rw [show ((25 : ℚ) * 4294967296) = ((107374182400 : ℤ) : ℚ) by norm_num]
  rw [Int.floor_intCast]
  rw [show ((107374182400 : ℤ).toNat) = 327680 * 327680 by decide]
  rw [Nat.sqrt_eq]
  norm_num

/-- Witness for the merge pair law: two eligible radius-20 siblings five
units apart at frame 700 merge into the first. -/
theorem merge_pair_resolution_witness :
    dSqrt (((100 : ℚ) - 105) * (100 - 105) + (100 - 100) * (100 - 100)) <
      ((20 : ℚ) + 20) * (1 / 2) ∧
    mergeStep 700 [(1, 600), (2, 600)]
        ⟨1, some 1, 100, 100, 20, 0, 0, "#ff6b6b", false⟩
        ⟨2, some 1, 105, 100, 20, 0, 0, "#ff6b6b", false⟩ =
      ({ (⟨1, some 1, 100, 100, 20, 0, 0, "#ff6b6b", false⟩ : Cell) with
          radius := min (dSqrt ((20 : ℚ) * 20 + 20 * 20)) MAX_RADIUS },
       { (⟨2, some 1, 105, 100, 20, 0, 0, "#ff6b6b", false⟩ : Cell) with
          destroyed := true },
       mapErase [(1, 600), (2, 600)] 2) :=
  ⟨by norm_num [dSqrt_twentyfive],
   (merge_pair_resolution 700 [(1, 600), (2, 600)]
      ⟨1, some 1, 100, 100, 20, 0, 0, "#ff6b6b", false⟩
      ⟨2, some 1, 105, 100, 20, 0, 0, "#ff6b6b", false⟩ [] rfl
      (by decide) (by decide) (by norm_num [dSqrt_twentyfive])).1⟩

/-- The split shrink factor is positive. -/
lemma sqrt2_pos : (0 : ℚ) < SQRT2 := by norm_num [SQRT2]

/-- Area near-conservation of the split: two cells of radius r over the
square root of two have combined area within a relative 2⁻⁵⁰ of r². -/
lemma split_area_bound (r : ℚ) :
    |r / SQRT2 * (r / SQRT2) + r / SQRT2 * (r / SQRT2) - r * r| ≤
      r * r * (1 / 1125899906842624) := by
  have h0 : SQRT2 ≠ 0 := ne_of_gt sqrt2_pos
  have h1 : r / SQRT2 * (r / SQRT2) + r / SQRT2 * (r / SQRT2) - r * r
      = r * r * ((2 - SQRT2 * SQRT2) / (SQRT2 * SQRT2)) := by
    field_simp
    ring
  rw [h1, abs_mul, abs_of_nonneg (mul_self_nonneg r)]
  apply mul_le_mul_of_nonneg_left _ (mul_self_nonneg r)
  rw [abs_div, abs_of_nonpos (by norm_num [SQRT2]),
    abs_of_nonneg (mul_self_nonneg SQRT2)]
  rw [div_le_div_iff₀ (mul_pos sqrt2_pos sqrt2_pos) (by norm_num)]
  norm_num [SQRT2]

/-- C5: splitting a cell shrinks the original to radius r over the square
root of two, spawns the new cell with the same radius and color, leaves the
combined area within fixed-point rounding of the original area, and records
merge-eligibility currentFrame + MERGE_DELAY_FRAMES and split-lockout
currentFrame for both the original and the new cell identifiers. -/
theorem split_cell_conservation (g : GameState) (cid : Nat) (target : ℚ × ℚ)
    (c : Cell)
    (hfind : findCell g c.id = some c)
    (hstr : getClientIdStr g cid ≠ "")
    (hcol : c.color ≠ "")
    (hr : MIN_SPLIT_RADIUS ≤ c.radius) :
    ∃ nc : Cell,
      (splitOneCell cid target g c.id).cells =
        updateCellById g.cells { c with radius := c.radius / SQRT2 } ++ [nc] ∧
      nc.radius = c.radius / SQRT2 ∧
      nc.color = c.color ∧
      nc.id = g.nextId ∧
      nc.destroyed = false ∧
      (splitOneCell cid target g c.id).mergeFrameMap =
        mapSet (mapSet g.mergeFrameMap c.id (g.frame + MERGE_DELAY_FRAMES))
          g.nextId (g.frame + MERGE_DELAY_FRAMES) ∧
      (splitOneCell cid target g c.id).splitFrameMap =
        mapSet (mapSet g.splitFrameMap c.id g.frame) g.nextId g.frame ∧
      |nc.radius * nc.radius + (c.radius / SQRT2) * (c.radius / SQRT2) - c.radius * c.radius| ≤
        c.radius * c.radius * (1 / 1125899906842624) := by
  have hr0 : c.radius / SQRT2 ≠ 0 := by
    have h2 : (0 : ℚ) < c.radius := by
      have h3 : (0 : ℚ) < MIN_SPLIT_RADIUS := by norm_num [MIN_SPLIT_RADIUS]
      linarith
    exact ne_of_gt (div_pos h2 sqrt2_pos)
  refine ⟨{ id := g.nextId,
            owner := some (g.internClient (getClientIdStr g cid)),
            x := c.x + (splitDir target c).1 * (c.radius / SQRT2) * 2,
            y := c.y + (splitDir target c).2 * (c.radius / SQRT2) * 2,
            radius := c.radius / SQRT2,
            vx := (splitDir target c).1 * SPLIT_VELOCITY,
            vy := (splitDir target c).2 * SPLIT_VELOCITY,
            color := c.color,
            destroyed := false }, ?_, rfl, rfl, rfl, rfl, ?_, ?_, ?_⟩
  case _ =>
    have hstr2 : ¬ g.clientStr cid = "" := hstr
    simp only [splitOneCell, hfind, spawnCell]
    simp [getClientIdStr, hstr2, hcol, hr0]
  case _ =>
    have hstr2 : ¬ g.clientStr cid = "" := hstr
    simp only [splitOneCell, hfind, spawnCell]
    simp [getClientIdStr, hstr2, hcol, hr0]
  case _ =>
    have hstr2 : ¬ g.clientStr cid = "" := hstr
    simp only [splitOneCell, hfind, spawnCell]
    simp [getClientIdStr, hstr2, hcol, hr0]
  case _ => exact split_area_bound c.radius

/-- Witness for the split conservation law: a radius-20 cell of owner 1
split toward (500, 500) at frame 0. -/
theorem split_cell_conservation_witness :
    findCell { baseState with
        cells := [⟨1, some 1, 100, 100, 20, 0, 0, "#ff6b6b", false⟩],
        nextId := 2, clientStr := fun _ => "p1" } 1 =
      some ⟨1, some 1, 100, 100, 20, 0, 0, "#ff6b6b", false⟩ ∧
    ∃ nc : Cell,
      (splitOneCell 1 (500, 500)
          { baseState with
            cells := [⟨1, some 1, 100, 100, 20, 0, 0, "#ff6b6b", false⟩],
            nextId := 2, clientStr := fun _ => "p1" } 1).cells =
        updateCellById [⟨1, some 1, 100, 100, 20, 0, 0, "#ff6b6b", false⟩]
          { (⟨1, some 1, 100, 100, 20, 0, 0, "#ff6b6b", false⟩ : Cell) with
            radius := (20 : ℚ) / SQRT2 } ++ [nc] ∧
      nc.radius = (20 : ℚ) / SQRT2 ∧
      nc.color = "#ff6b6b" ∧
      nc.id = 2 ∧
      nc.destroyed = false ∧
      (splitOneCell 1 (500, 500)
          { baseState with
            cells := [⟨1, some 1, 100, 100, 20, 0, 0, "#ff6b6b", false⟩],
            nextId := 2, clientStr := fun _ => "p1" } 1).mergeFrameMap =
        mapSet (mapSet [] 1 (0 + MERGE_DELAY_FRAMES)) 2 (0 + MERGE_DELAY_FRAMES) ∧
      (splitOneCell 1 (500, 500)
          { baseState with
            cells := [⟨1, some 1, 100, 100, 20, 0, 0, "#ff6b6b", false⟩],
            nextId := 2, clientStr := fun _ => "p1" } 1).splitFrameMap =
        mapSet (mapSet [] 1 0) 2 0 ∧
      |nc.radius * nc.radius + (20 : ℚ) / SQRT2 * ((20 : ℚ) / SQRT2) - 20 * 20| ≤
        (20 : ℚ) * 20 * (1 / 1125899906842624) :=
  ⟨rfl,
   split_cell_conservation
     { baseState with
       cells := [⟨1, some 1, 100, 100, 20, 0, 0, "#ff6b6b", false⟩],
       nextId := 2, clientStr := fun _ => "p1" }
     1 (500, 500) ⟨1, some 1, 100, 100, 20, 0, 0, "#ff6b6b", false⟩
     rfl (by decide) (by decide) (by norm_num [MIN_SPLIT_RADIUS])⟩

/-- Writing back a radius-only change through the first id match keeps the
per-owner live-cell count unchanged. -/
lemma updateCellById_radius_count (cs : List Cell) (c : Cell) (r : ℚ) (cid : Nat)
    (h : cs.find? (fun d => d.id == c.id) = some c) :
    ((updateCellById cs { c with radius := r }).filter
        (fun d => d.owner == some cid && !d.destroyed)).length =
      (cs.filter (fun d => d.owner == some cid && !d.destroyed)).length := by
  induction cs with
  | nil => simp [List.find?] at h
  | cons d rest ih =>
    rw [List.find?_cons] at h
    by_cases h2 : d.id = c.id
    · have h3 : (d.id == c.id) = true := beq_iff_eq.mpr h2
      rw [h3] at h
      simp only [Option.some.injEq] at h
      subst h
      unfold updateCellById
      rw [if_pos h2]
      simp [List.filter_cons]
      split <;> rfl
    · have h3 : (d.id == c.id) = false := beq_eq_false_iff_ne.mpr h2
      rw [h3] at h
      unfold updateCellById
      rw [if_neg h2]
      simp only [List.filter_cons]
      split
      · simp [ih h]
      · exact ih h

/-- A find by id returns a cell carrying that id. -/
lemma findCell_id (g : GameState) (i : Nat) (c : Cell)
    (h : findCell g i = some c) : c.id = i := by
  have h2 := List.find?_some h
  exact beq_iff_eq.mp h2

/-- One split-cell body increases an owner's live-cell count by at most
one. -/
lemma splitOneCell_count (cid : Nat) (target : ℚ × ℚ) (g : GameState) (i : Nat)
    (cid2 : Nat) :
    (getPlayerCells (splitOneCell cid target g i) cid2).length ≤
      (getPlayerCells g cid2).length + 1 := by
  unfold splitOneCell
  rcases hf : findCell g i with _ | c
  · show (getPlayerCells g cid2).length ≤ (getPlayerCells g cid2).length + 1
    omega
  · have hid : c.id = i := findCell_id g i c hf
    subst hid
    have hfind2 : g.cells.find? (fun d => d.id == c.id) = some c := hf
    dsimp only
    split
    · simp only [getPlayerCells]
      rw [updateCellById_radius_count g.cells c _ cid2 hfind2]
      omega
    · simp only [getPlayerCells, spawnCell]
      simp only [List.filter_append, List.length_append]
      rw [updateCellById_radius_count g.cells c _ cid2 hfind2]
      apply Nat.add_le_add_left
      exact le_trans (List.length_filter_le _ _) (by simp)

/-- Folding the split body over a cell list increases an owner's live-cell
count by at most the list length. -/
lemma splitFold_count (cid : Nat) (target : ℚ × ℚ) (l : List Cell)
    (g : GameState) (cid2 : Nat) :
    (getPlayerCells (l.foldl (fun g c => splitOneCell cid target g c.id) g) cid2).length ≤
      (getPlayerCells g cid2).length + l.length := by
  induction l generalizing g with
  | nil => simp
  | cons c rest ih =>
    simp only [List.foldl_cons, List.length_cons]
    have h1 := ih (splitOneCell cid target g c.id)
    have h2 := splitOneCell_count cid target g c.id cid2
    omega

/-- C6: the split pass skips an owner whose input lacks a split flag or a
target, or who already has MAX_CELLS_PER_PLAYER cells; the cells that split
are exactly the current list filtered by the minimum split radius and
truncated to the remaining capacity in canonical order; and the owner's
live-cell count never exceeds MAX_CELLS_PER_PLAYER after the pass. -/
theorem split_owner_capped (inp : Option Input) (g : GameState) (cid : Nat)
    (cells : List Cell)
    (hcount : cells.length = (getPlayerCells g cid).length)
    (hmax : cells.length ≤ MAX_CELLS_PER_PLAYER) :
    (inp = none → splitForOwner inp g cid cells = g) ∧
    (∀ i2, inp = some i2 → (¬ i2.split ∨ i2.target = none) →
      splitForOwner inp g cid cells = g) ∧
    (MAX_CELLS_PER_PLAYER ≤ cells.length → splitForOwner inp g cid cells = g) ∧
    cellsToSplit cells =
      (cells.filter fun c => MIN_SPLIT_RADIUS ≤ c.radius).take
        (MAX_CELLS_PER_PLAYER - cells.length) ∧
    (getPlayerCells (splitForOwner inp g cid cells) cid).length ≤
      MAX_CELLS_PER_PLAYER := by
  refine ⟨?_, ?_, ?_, rfl, ?_⟩
  · intro h
    subst h
    rfl
  · intro i2 h hskip
    subst h
    simp only [splitForOwner]
    rw [if_pos hskip]
  · intro h
    rcases inp with _ | i2
    · rfl
    · simp only [splitForOwner]
      by_cases hskip : ¬ i2.split = true ∨ i2.target = none
      · rw [if_pos hskip]
      · rw [if_neg hskip, if_pos h]
  · rcases inp with _ | i2
    · have h2 : splitForOwner none g cid cells = g := rfl
      rw [h2, ← hcount]
      exact hmax
    · simp only [splitForOwner]
      by_cases hskip : ¬ i2.split = true ∨ i2.target = none
      · rw [if_pos hskip, ← hcount]
        exact hmax
      · rw [if_neg hskip]
        by_cases hlen : MAX_CELLS_PER_PLAYER ≤ cells.length
        · rw [if_pos hlen, ← hcount]
          exact hmax
        · rw [if_neg hlen]
          rcases ht : i2.target with _ | target
          · show (getPlayerCells g cid).length ≤ MAX_CELLS_PER_PLAYER
            rw [← hcount]
            exact hmax
          · dsimp only
            have h1 := splitFold_count cid target (cellsToSplit cells) g cid
            have h2 : (cellsToSplit cells).length ≤
                MAX_CELLS_PER_PLAYER - cells.length := by
              unfold cellsToSplit
              rw [List.length_take]
              exact min_le_left _ _
            omega

/-- Witness for the split cap: one radius-20 cell of owner 1 with a split
input. -/
theorem split_owner_capped_witness :
    (1 : Nat) ≤ MAX_CELLS_PER_PLAYER ∧
    (getPlayerCells
        (splitForOwner (some ⟨some (500, 500), true⟩)
          { baseState with
            cells := [⟨1, some 1, 100, 100, 20, 0, 0, "#ff6b6b", false⟩],
            nextId := 2, clientStr := fun _ => "p1" }
          1 [⟨1, some 1, 100, 100, 20, 0, 0, "#ff6b6b", false⟩]) 1).length ≤
      MAX_CELLS_PER_PLAYER :=
  ⟨by decide,
   (split_owner_capped (some ⟨some (500, 500), true⟩)
      { baseState with
        cells := [⟨1, some 1, 100, 100, 20, 0, 0, "#ff6b6b", false⟩],
        nextId := 2, clientStr := fun _ => "p1" }
      1 [⟨1, some 1, 100, 100, 20, 0, 0, "#ff6b6b", false⟩]
      rfl (by decide)).2.2.2.2⟩

end CellEater
